import Mathlib

/-!
Shallow embedding of the writer-bridge and writer-registry core of
`tantivy-search` (`src/index/bridge/index_writer_bridge.rs` and
`src/index/index_w.rs`).

The underlying tantivy engine (`IndexWriter.commit`, `add_document`,
`delete_term`, `wait_merging_threads`) is an external collaborator, out of
scope of the repository; it is modelled as an abstract state-transformer
record `Engine` over an opaque writer-state type.  The bridge's
`Mutex<Option<IndexWriter>>` is modelled as an `Option` slot: in this
sequential embedding the mutex always acquires (the poisoned-lock branch
requires a panic while holding the guard, which no code path of the bridge
performs), so each operation is a function from bridge state to
(result, next bridge state).  Errors are the `String` messages the Rust
code produces, via `Except String`.

The registry (`INDEXW_CACHE`, a `flurry::HashMap<String, Arc<IndexW>>`)
is modelled as an association list with unique keys; `insert` overwrites,
matching the concurrent map's per-key semantics.
-/

namespace TantivySearch

/-- Rust `tantivy::Opstamp` is `u64`; the bridge only stores and returns
stamps (no arithmetic), so `Nat` is a faithful carrier. -/
abbrev Opstamp := Nat

/-- Error string of `commit`/`add_document` on a retired writer
(`index_writer_bridge.rs` lines 20 and 34). -/
def unavailableMsg : String := "IndexWriterBridge is not available"

/-- Error string of `delete_term`/`delete_terms` on a retired writer
(`index_writer_bridge.rs` lines 49 and 67 — both use the same string). -/
def unavailableDeleteMsg : String := "IndexWriterBridge is not available for delete_term"

/-- Error string of `get_index_w` on a missing key (`index_w.rs` line 79). -/
def notFoundMsg (key : String) : String :=
  "Index doesn't exist with given key: [" ++ key ++ "]"

/-- Error string of `set_index_w` on an occupied key (`index_w.rs` lines 87-90). -/
def alreadyExistsMsg (key : String) : String :=
  "Index already exists with given key: [" ++ key ++ "], it has been overwritten."

/-- Error string of `remove_index_w` on a missing key (`index_w.rs` lines 102-105). -/
def removeNotFoundMsg (key : String) : String :=
  "Index doesn't exist, can't remove it with given key: [" ++ key ++ "]"

/-- Abstract interface of the external tantivy engine as the bridge uses it:
`W` is the opaque `IndexWriter` state, `D` the document type, `T` the term
type.  Each fallible call returns its `Result` (already stringified, as the
bridge maps errors with `e.to_string()`) together with the writer's next
state; `deleteTerm` is infallible in tantivy's API and returns an opstamp. -/
structure Engine (W D T : Type) where
  commit : W → Except String Opstamp × W
  addDocument : W → D → Except String Opstamp × W
  deleteTerm : W → T → Opstamp × W
  waitMergingThreads : W → Except String Unit

/-- `IndexWriterBridge` from `index_writer_bridge.rs`: a path, the index
handle (opaque type `I`, never consulted by the bridge's own operations),
and the mutex-guarded optional writer slot. -/
structure IndexWriterBridge (I W : Type) where
  path : String
  index : I
  writer : Option W

variable {I W D T V : Type}

/-- `IndexWriterBridge::commit`: with a live writer, delegate to the engine
and keep the (possibly advanced) writer in the slot; with an empty slot,
fail with the unavailable message.  The lock acquisition always succeeds in
this sequential model. -/
def IndexWriterBridge.commit (E : Engine W D T) (b : IndexWriterBridge I W) :
    Except String Opstamp × IndexWriterBridge I W :=
  match b.writer with
  | some w =>
      let p := E.commit w
      (p.1, { b with writer := some p.2 })
  | none => (Except.error unavailableMsg, b)

/-- `IndexWriterBridge::add_document`: same availability semantics as
`commit`. -/
def IndexWriterBridge.add_document (E : Engine W D T) (b : IndexWriterBridge I W) (d : D) :
    Except String Opstamp × IndexWriterBridge I W :=
  match b.writer with
  | some w =>
      let p := E.addDocument w d
      (p.1, { b with writer := some p.2 })
  | none => (Except.error unavailableMsg, b)

/-- `IndexWriterBridge::delete_term`: single-term deletion; tantivy's
`delete_term` is infallible, so the live branch always returns `Ok`. -/
def IndexWriterBridge.delete_term (E : Engine W D T) (b : IndexWriterBridge I W) (t : T) :
    Except String Opstamp × IndexWriterBridge I W :=
  match b.writer with
  | some w =>
      let p := E.deleteTerm w t
      (Except.ok p.1, { b with writer := some p.2 })
  | none => (Except.error unavailableDeleteMsg, b)

/-- The `for term in terms { opstamp = writer.delete_term(term) }` loop of
`delete_terms`, threading the running opstamp (initially `0`) and the
writer state. -/
def deleteTermsLoop (E : Engine W D T) (w : W) (opstamp : Opstamp) :
    List T → Opstamp × W
  | [] => (opstamp, w)
  | t :: rest =>
      let p := E.deleteTerm w t
      deleteTermsLoop E p.2 p.1 rest

/-- `IndexWriterBridge::delete_terms`: on a live writer, run the deletion
loop starting from opstamp `0` and return the final stamp; on a retired
writer, fail with the same message as `delete_term`. -/
def IndexWriterBridge.delete_terms (E : Engine W D T) (b : IndexWriterBridge I W)
    (terms : List T) : Except String Opstamp × IndexWriterBridge I W :=
  match b.writer with
  | some w =>
      let p := deleteTermsLoop E w 0 terms
      (Except.ok p.1, { b with writer := some p.2 })
  | none => (Except.error unavailableDeleteMsg, b)

/-- `IndexWriterBridge::wait_merging_threads`: `take()` the writer out of
the slot if present, call the engine's wait and discard its result
(`let _ = writer.wait_merging_threads();`), and return `Ok(())`; if the
slot is already empty, return `Ok(())` without touching anything. -/
def IndexWriterBridge.wait_merging_threads (E : Engine W D T) (b : IndexWriterBridge I W) :
    Except String Unit × IndexWriterBridge I W :=
  match b.writer with
  | some w =>
      let _ := E.waitMergingThreads w
      (Except.ok (), { b with writer := none })
  | none => (Except.ok (), b)

/-- The bridge's five public operations, as abstract actions for stating
whole-trace invariants. -/
inductive BridgeOp (D T : Type) where
  | commit
  | addDocument (d : D)
  | deleteTerm (t : T)
  | deleteTerms (ts : List T)
  | waitMergingThreads
deriving DecidableEq

/-- State transition of one bridge operation (result discarded). -/
def stepBridge (E : Engine W D T) (b : IndexWriterBridge I W) :
    BridgeOp D T → IndexWriterBridge I W
  | BridgeOp.commit => (IndexWriterBridge.commit E b).2
  | BridgeOp.addDocument d => (IndexWriterBridge.add_document E b d).2
  | BridgeOp.deleteTerm t => (IndexWriterBridge.delete_term E b t).2
  | BridgeOp.deleteTerms ts => (IndexWriterBridge.delete_terms E b ts).2
  | BridgeOp.waitMergingThreads => (IndexWriterBridge.wait_merging_threads E b).2

/-- Run a sequence of bridge operations, in order. -/
def runBridge (E : Engine W D T) (b : IndexWriterBridge I W)
    (ops : List (BridgeOp D T)) : IndexWriterBridge I W :=
  ops.foldl (stepBridge E) b

/-- The four mutating operations (those that return an opstamp `Result`). -/
inductive MutOp (D T : Type) where
  | commit
  | addDocument (d : D)
  | deleteTerm (t : T)
  | deleteTerms (ts : List T)
deriving DecidableEq

/-- Result and next state of one mutating operation. -/
def mutStep (E : Engine W D T) (b : IndexWriterBridge I W) :
    MutOp D T → Except String Opstamp × IndexWriterBridge I W
  | MutOp.commit => IndexWriterBridge.commit E b
  | MutOp.addDocument d => IndexWriterBridge.add_document E b d
  | MutOp.deleteTerm t => IndexWriterBridge.delete_term E b t
  | MutOp.deleteTerms ts => IndexWriterBridge.delete_terms E b ts

/-- The list of results observed when running a sequence of mutating calls
in order. -/
def mutTrace (E : Engine W D T) (b : IndexWriterBridge I W) :
    List (MutOp D T) → List (Except String Opstamp)
  | [] => []
  | op :: rest =>
      let p := mutStep E b op
      p.1 :: mutTrace E p.2 rest

/-- A result is one of the two "writer retired" errors of the bridge. -/
def isUnavailable (r : Except String Opstamp) : Prop :=
  r = Except.error unavailableMsg ∨ r = Except.error unavailableDeleteMsg

/- ### Registry (`index_w.rs`) -/

/-- First-match lookup in the association-list model of `INDEXW_CACHE`. -/
def mapLookup : List (String × V) → String → Option V
  | [], _ => none
  | p :: rest, key => if p.1 = key then some p.2 else mapLookup rest key

/-- Erase every entry with the given key (the model keeps keys unique, so
at most one is ever present in reachable states). -/
def mapErase : List (String × V) → String → List (String × V)
  | [], _ => []
  | p :: rest, key => if p.1 = key then mapErase rest key else p :: mapErase rest key

/-- `HashMap::insert`: overwrite any existing entry for the key. -/
def mapInsert (m : List (String × V)) (key : String) (v : V) : List (String × V) :=
  (key, v) :: mapErase m key

/-- `HashMap::contains_key`. -/
def mapContainsKey (m : List (String × V)) (key : String) : Bool :=
  (mapLookup m key).isSome

/-- `get_index_w`: clone the `Arc` under the key, or fail with the
"doesn't exist" message. -/
def get_index_w (m : List (String × V)) (key : String) : Except String V :=
  match mapLookup m key with
  | some result => Except.ok result
  | none => Except.error (notFoundMsg key)

/-- `set_index_w`: if the key is occupied, insert anyway (overwriting) and
report the "already exists ... has been overwritten" condition; otherwise
insert and return `Ok`. -/
def set_index_w (m : List (String × V)) (key : String) (value : V) :
    Except String Unit × List (String × V) :=
  if mapContainsKey m key then
    (Except.error (alreadyExistsMsg key), mapInsert m key value)
  else
    (Except.ok (), mapInsert m key value)

/-- `remove_index_w`: remove the entry if present, else fail with the
"can't remove" message and leave the map untouched. -/
def remove_index_w (m : List (String × V)) (key : String) :
    Except String Unit × List (String × V) :=
  if mapContainsKey m key then
    (Except.ok (), mapErase m key)
  else
    (Except.error (removeNotFoundMsg key), m)

/-- Mutating registry operations, for stating sequence properties. -/
inductive RegOp (V : Type) where
  | set (key : String) (value : V)
  | remove (key : String)

/-- The key an operation touches. -/
def RegOp.key : RegOp V → String
  | RegOp.set k _ => k
  | RegOp.remove k => k

/-- State transition of one registry operation (result discarded). -/
def applyRegOp (m : List (String × V)) : RegOp V → List (String × V)
  | RegOp.set k v => (set_index_w m k v).2
  | RegOp.remove k => (remove_index_w m k).2

/-- Run a sequence of registry operations, in order. -/
def runRegOps (m : List (String × V)) (ops : List (RegOp V)) : List (String × V) :=
  ops.foldl applyRegOp m

/- ### Helper lemmas -/

theorem bridge_eta (b : IndexWriterBridge I W) (w : W) (h : b.writer = some w) :
    ({ b with writer := some w } : IndexWriterBridge I W) = b := by
  cases b
  subst h
  rfl

theorem wait_merging_threads_fst (E : Engine W D T) (b : IndexWriterBridge I W) :
    (IndexWriterBridge.wait_merging_threads E b).1 = Except.ok () := by
  cases h : b.writer <;> simp [IndexWriterBridge.wait_merging_threads, h]

theorem wait_merging_threads_writer (E : Engine W D T) (b : IndexWriterBridge I W) :
    ((IndexWriterBridge.wait_merging_threads E b).2).writer = none := by
  cases h : b.writer <;> simp [IndexWriterBridge.wait_merging_threads, h]

theorem wait_merging_threads_of_none (E : Engine W D T) (b : IndexWriterBridge I W)
    (h : b.writer = none) :
    IndexWriterBridge.wait_merging_threads E b = (Except.ok (), b) := by
  simp [IndexWriterBridge.wait_merging_threads, h]

theorem stepBridge_of_none (E : Engine W D T) (b : IndexWriterBridge I W)
    (h : b.writer = none) (op : BridgeOp D T) : stepBridge E b op = b := by
  cases op <;>
    simp [stepBridge, IndexWriterBridge.commit, IndexWriterBridge.add_document,
      IndexWriterBridge.delete_term, IndexWriterBridge.delete_terms,
      IndexWriterBridge.wait_merging_threads, h]

theorem stepBridge_isSome (E : Engine W D T) (b : IndexWriterBridge I W)
    (op : BridgeOp D T) (h : ((stepBridge E b op).writer).isSome = true) :
    (b.writer).isSome = true := by
  cases hw : b.writer with
  | none => rw [stepBridge_of_none E b hw op] at h; rw [hw] at h; exact h
  | some w => simp

theorem runBridge_isSome (E : Engine W D T) (b : IndexWriterBridge I W)
    (ops : List (BridgeOp D T)) (h : ((runBridge E b ops).writer).isSome = true) :
    (b.writer).isSome = true := by
  induction ops generalizing b with
  | nil => exact h
  | cons op rest ih =>
      exact stepBridge_isSome E b op (ih (stepBridge E b op) h)

theorem stepBridge_preserves_isSome (E : Engine W D T) (b : IndexWriterBridge I W)
    (op : BridgeOp D T) (hop : op ≠ BridgeOp.waitMergingThreads) :
    ((stepBridge E b op).writer).isSome = (b.writer).isSome := by
  cases hw : b.writer with
  | none => rw [stepBridge_of_none E b hw op, hw]
  | some w =>
      cases op with
      | commit => simp [stepBridge, IndexWriterBridge.commit, hw]
      | addDocument d => simp [stepBridge, IndexWriterBridge.add_document, hw]
      | deleteTerm t => simp [stepBridge, IndexWriterBridge.delete_term, hw]
      | deleteTerms ts => simp [stepBridge, IndexWriterBridge.delete_terms, hw]
      | waitMergingThreads => exact absurd rfl hop

theorem mutStep_of_none (E : Engine W D T) (b : IndexWriterBridge I W)
    (h : b.writer = none) (op : MutOp D T) :
    isUnavailable (mutStep E b op).1 ∧ (mutStep E b op).2 = b := by
  cases op <;>
    simp [mutStep, IndexWriterBridge.commit, IndexWriterBridge.add_document,
      IndexWriterBridge.delete_term, IndexWriterBridge.delete_terms, h, isUnavailable]

theorem deleteTermsLoop_snd (E : Engine W D T) (ts : List T) (w : W) (acc : Opstamp) :
    (deleteTermsLoop E w acc ts).2 = ts.foldl (fun x u => (E.deleteTerm x u).2) w := by
  induction ts generalizing w acc with
  | nil => rfl
  | cons t rest ih => simp [deleteTermsLoop, ih]

theorem deleteTermsLoop_last (E : Engine W D T) (ts : List T) (t : T) (w : W) (acc : Opstamp) :
    (deleteTermsLoop E w acc (ts ++ [t])).1 =
      (E.deleteTerm (deleteTermsLoop E w acc ts).2 t).1 := by
  induction ts generalizing w acc with
  | nil => rfl
  | cons u rest ih => simp [deleteTermsLoop, ih]

theorem mapLookup_mapErase (m : List (String × V)) (k k' : String) :
    mapLookup (mapErase m k) k' = if k' = k then none else mapLookup m k' := by
  induction m with
  | nil => simp [mapErase, mapLookup]
  | cons p rest ih =>
      by_cases hp : p.1 = k
      · rw [show mapErase (p :: rest) k = mapErase rest k by simp [mapErase, hp], ih]
        by_cases hk : k' = k
        · simp [hk]
        · have hp' : ¬ p.1 = k' := fun hh => hk (hh ▸ hp)
          simp [hk, mapLookup, hp']
  -- keep-branch: the head entry survives and lookup distributes
      · rw [show mapErase (p :: rest) k = p :: mapErase rest k by simp [mapErase, hp]]
        by_cases hpk : p.1 = k'
        · have hk : ¬ k' = k := fun h => hp (h ▸ hpk)
          simp [mapLookup, hpk, hk]
        · simp [mapLookup, hpk, ih]

theorem mapLookup_mapInsert (m : List (String × V)) (k k' : String) (v : V) :
    mapLookup (mapInsert m k v) k' = if k = k' then some v else mapLookup m k' := by
  by_cases hk : k = k'
  · simp [mapInsert, mapLookup, hk]
  · simp [mapInsert, mapLookup, hk, mapLookup_mapErase]
    intro h
    exact absurd h.symm hk

theorem set_index_w_snd (m : List (String × V)) (k : String) (v : V) :
    (set_index_w m k v).2 = mapInsert m k v := by
  by_cases h : mapContainsKey m k <;> simp [set_index_w, h]

theorem applyRegOp_lookup_ne (m : List (String × V)) (op : RegOp V) (K : String)
    (h : RegOp.key op ≠ K) : mapLookup (applyRegOp m op) K = mapLookup m K := by
  cases op with
  | set k v =>
      have hk : k ≠ K := h
      rw [applyRegOp, set_index_w_snd, mapLookup_mapInsert]
      simp [hk]
  | remove k =>
      have hk : k ≠ K := h
      by_cases hc : mapContainsKey m k
      · rw [applyRegOp, show (remove_index_w m k).2 = mapErase m k by simp [remove_index_w, hc],
          mapLookup_mapErase, if_neg (fun hKk : K = k => hk hKk.symm)]
      · rw [applyRegOp, show (remove_index_w m k).2 = m by simp [remove_index_w, hc]]

theorem runRegOps_lookup_ne (m : List (String × V)) (ops : List (RegOp V)) (K : String)
    (h : ∀ op ∈ ops, RegOp.key op ≠ K) :
    mapLookup (runRegOps m ops) K = mapLookup m K := by
  induction ops generalizing m with
  | nil => rfl
  | cons op rest ih =>
      rw [show runRegOps m (op :: rest) = runRegOps (applyRegOp m op) rest from rfl,
        ih (applyRegOp m op) (fun o ho => h o (List.mem_cons_of_mem op ho)),
        applyRegOp_lookup_ne m op K (h op (List.mem_cons_self op rest))]

/- ### Concrete engine and bridges for evaluating the theorems -/

/-- A concrete engine over `W = D = T = Nat`: the writer state counts calls,
commit/add return the current state as stamp, `deleteTerm` returns state
plus term so that distinct deletions produce distinct stamps. -/
def natEngine : Engine Nat Nat Nat where
  commit w := (Except.ok w, w + 1)
  addDocument w _ := (Except.ok w, w + 1)
  deleteTerm w t := (w + t, w + 1)
  waitMergingThreads _ := Except.ok ()

/-- A live bridge holding writer state `0`. -/
def sampleBridge : IndexWriterBridge Unit Nat :=
  { path := "idx", index := (), writer := some 0 }

/-- A bridge whose writer slot has already been retired. -/
def retiredBridge : IndexWriterBridge Unit Nat :=
  { path := "idx", index := (), writer := none }

/-- Iterated `wait_merging_threads`, keeping only the state: `n` successive
calls starting from `b`. -/
def iterWait (E : Engine W D T) (b : IndexWriterBridge I W) :
    Nat → IndexWriterBridge I W
  | 0 => b
  | n + 1 => (IndexWriterBridge.wait_merging_threads E (iterWait E b n)).2

/- ### Claim theorems -/

/-- C1: `wait_merging_threads` returns success, and on the bridge it leaves
behind, every subsequent sequence of `commit`, `add_document`,
`delete_term`, `delete_terms` calls observes only the bridge's
"not available" errors — no mutating call ever succeeds after
retirement. -/
theorem retired_bridge_rejects_mutations (E : Engine W D T)
    (b : IndexWriterBridge I W) (ops : List (MutOp D T)) :
    (IndexWriterBridge.wait_merging_threads E b).1 = Except.ok () ∧
    ∀ r ∈ mutTrace E (IndexWriterBridge.wait_merging_threads E b).2 ops,
      isUnavailable r := by
  refine ⟨wait_merging_threads_fst E b, ?_⟩
  have key : ∀ (l : List (MutOp D T)) (c : IndexWriterBridge I W), c.writer = none →
      ∀ r ∈ mutTrace E c l, isUnavailable r := by
    intro l
    induction l with
    | nil => intro c _ r hr; simp [mutTrace] at hr
    | cons op rest ih =>
        intro c hc r hr
        obtain ⟨h1, h2⟩ := mutStep_of_none E c hc op
        simp only [mutTrace] at hr
        rcases List.mem_cons.mp hr with h | h
        · exact h.symm ▸ h1
        · exact ih (mutStep E c op).2 (h2.symm ▸ hc) r h
  exact key ops _ (wait_merging_threads_writer E b)

/-- Witness for C1 at a concrete live bridge: retire it, then a `commit`
observes the unavailable error. -/
theorem retired_bridge_rejects_mutations_witness :
    (IndexWriterBridge.wait_merging_threads natEngine sampleBridge).1 = Except.ok () ∧
    isUnavailable (Except.error unavailableMsg) := by
  obtain ⟨h1, h2⟩ :=
    retired_bridge_rejects_mutations natEngine sampleBridge [MutOp.commit]
  exact ⟨h1, h2 (Except.error unavailableMsg) (List.Mem.head _)⟩

/-- C2: on a live writer, `delete_terms []` issues no deletion and returns
the baseline stamp `0` with the bridge unchanged; `delete_terms ts` applies
the deletions in list order (the final writer state is the left fold of the
engine's `delete_term` over `ts`); and for a non-empty list `ts ++ [t]` the
returned stamp is exactly the stamp of the last deletion `t`. -/
theorem delete_terms_in_order_last_stamp (E : Engine W D T)
    (b : IndexWriterBridge I W) (w : W) (h : b.writer = some w)
    (ts : List T) (t : T) :
    IndexWriterBridge.delete_terms E b [] = (Except.ok 0, b) ∧
    ((IndexWriterBridge.delete_terms E b ts).2).writer =
      some (ts.foldl (fun x u => (E.deleteTerm x u).2) w) ∧
    (IndexWriterBridge.delete_terms E b (ts ++ [t])).1 =
      Except.ok (E.deleteTerm (ts.foldl (fun x u => (E.deleteTerm x u).2) w) t).1 := by
  refine ⟨?_, ?_, ?_⟩
  · simp [IndexWriterBridge.delete_terms, h, deleteTermsLoop, bridge_eta b w h]
  · simp [IndexWriterBridge.delete_terms, h, deleteTermsLoop_snd]
  · simp [IndexWriterBridge.delete_terms, h, deleteTermsLoop_last, deleteTermsLoop_snd]

/-- Witness for C2 at the live `sampleBridge` with terms `[5]` then `7`. -/
theorem delete_terms_in_order_last_stamp_witness :
    IndexWriterBridge.delete_terms natEngine sampleBridge ([] : List Nat) =
      (Except.ok 0, sampleBridge) ∧
    ((IndexWriterBridge.delete_terms natEngine sampleBridge [5]).2).writer =
      some ([5].foldl (fun x u => (natEngine.deleteTerm x u).2) 0) ∧
    (IndexWriterBridge.delete_terms natEngine sampleBridge ([5] ++ [7])).1 =
      Except.ok
        (natEngine.deleteTerm ([5].foldl (fun x u => (natEngine.deleteTerm x u).2) 0) 7).1 :=
  delete_terms_in_order_last_stamp natEngine sampleBridge 0 rfl [5] 7

/-- C3: one-way retirement.  Along any run, if the writer slot is occupied
at the end it was occupied at the start (presence never goes from empty to
occupied, hence it flips occupied→empty at most once along any trace);
every operation other than `wait_merging_threads` preserves presence
exactly; and from an empty slot no operation — succeeding or failing —
ever stores a handle. -/
theorem one_way_retirement (E : Engine W D T) (b : IndexWriterBridge I W)
    (ops : List (BridgeOp D T)) :
    (((runBridge E b ops).writer).isSome = true → (b.writer).isSome = true) ∧
    (∀ op : BridgeOp D T, op ≠ BridgeOp.waitMergingThreads →
      ((stepBridge E b op).writer).isSome = (b.writer).isSome) ∧
    (b.writer = none → ∀ op : BridgeOp D T, (stepBridge E b op).writer = none) := by
  refine ⟨runBridge_isSome E b ops, stepBridge_preserves_isSome E b, ?_⟩
  intro h op
  rw [stepBridge_of_none E b h op]
  exact h

/-- Witness for C3: concrete instances of all three conjuncts. -/
theorem one_way_retirement_witness :
    (sampleBridge.writer).isSome = true ∧
    ((stepBridge natEngine sampleBridge (BridgeOp.deleteTerm 3)).writer).isSome =
      (sampleBridge.writer).isSome ∧
    (stepBridge natEngine retiredBridge BridgeOp.commit).writer = none :=
  ⟨(one_way_retirement natEngine sampleBridge [BridgeOp.commit]).1 rfl,
   (one_way_retirement natEngine sampleBridge []).2.1 (BridgeOp.deleteTerm 3) (by simp),
   (one_way_retirement natEngine retiredBridge []).2.2 rfl BridgeOp.commit⟩

/-- C4: write-then-warn.  If `K` is occupied, `set_index_w` overwrites the
entry (a later `get_index_w K` returns the new bridge) and reports the
`AlreadyExists` condition; if `K` is vacant, it stores the bridge and
returns plain success. -/
theorem set_index_w_write_then_warn (m : List (String × V)) (K : String) (B1 B2 : V) :
    (mapLookup m K = some B1 →
      (set_index_w m K B2).1 = Except.error (alreadyExistsMsg K) ∧
      get_index_w ((set_index_w m K B2).2) K = Except.ok B2) ∧
    (mapLookup m K = none →
      (set_index_w m K B2).1 = Except.ok () ∧
      get_index_w ((set_index_w m K B2).2) K = Except.ok B2) := by
  constructor
  · intro h
    have hc : mapContainsKey m K = true := by simp [mapContainsKey, h]
    exact ⟨by simp [set_index_w, hc],
      by simp [get_index_w, set_index_w_snd, mapLookup_mapInsert]⟩
  · intro h
    have hc : mapContainsKey m K = false := by simp [mapContainsKey, h]
    exact ⟨by simp [set_index_w, hc],
      by simp [get_index_w, set_index_w_snd, mapLookup_mapInsert]⟩

/-- Witness for C4: overwrite an occupied key in a one-entry registry. -/
theorem set_index_w_write_then_warn_witness :
    mapLookup [("k", (0 : Nat))] "k" = some 0 ∧
    ((set_index_w [("k", (0 : Nat))] "k" 1).1 = Except.error (alreadyExistsMsg "k") ∧
      get_index_w ((set_index_w [("k", (0 : Nat))] "k" 1).2) "k" = Except.ok 1) := by
  have hlookup : mapLookup [("k", (0 : Nat))] "k" = some 0 := by simp [mapLookup]
  exact ⟨hlookup, (set_index_w_write_then_warn [("k", (0 : Nat))] "k" 0 1).1 hlookup⟩

/-- C5: on an already-empty slot `wait_merging_threads` succeeds
immediately and changes nothing; and however many calls were made before,
the next call succeeds, every call after the first being a no-op success. -/
theorem wait_merging_threads_idempotent (E : Engine W D T)
    (b : IndexWriterBridge I W) (n : Nat) :
    (b.writer = none → IndexWriterBridge.wait_merging_threads E b = (Except.ok (), b)) ∧
    (IndexWriterBridge.wait_merging_threads E (iterWait E b n)).1 = Except.ok () ∧
    IndexWriterBridge.wait_merging_threads E (iterWait E b (n + 1)) =
      (Except.ok (), iterWait E b (n + 1)) := by
  refine ⟨wait_merging_threads_of_none E b, wait_merging_threads_fst E _, ?_⟩
  have h : (iterWait E b (n + 1)).writer = none :=
    wait_merging_threads_writer E (iterWait E b n)
  exact wait_merging_threads_of_none E _ h

/-- Witness for C5 at the retired bridge. -/
theorem wait_merging_threads_idempotent_witness :
    IndexWriterBridge.wait_merging_threads natEngine retiredBridge =
      (Except.ok (), retiredBridge) ∧
    (IndexWriterBridge.wait_merging_threads natEngine
      (iterWait natEngine retiredBridge 0)).1 = Except.ok () ∧
    IndexWriterBridge.wait_merging_threads natEngine (iterWait natEngine retiredBridge 1) =
      (Except.ok (), iterWait natEngine retiredBridge 1) := by
  obtain ⟨h1, h2, h3⟩ := wait_merging_threads_idempotent natEngine retiredBridge 0
  exact ⟨h1 rfl, h2, h3⟩

/-- C6: `remove_index_w` on an absent key fails with the `NotFound` message
and returns the registry unchanged; on a present key it succeeds, removes
exactly that entry and leaves every other key's mapping intact. -/
theorem remove_index_w_spec (m : List (String × V)) (K : String) :
    (mapLookup m K = none →
      remove_index_w m K = (Except.error (removeNotFoundMsg K), m)) ∧
    (∀ B, mapLookup m K = some B →
      (remove_index_w m K).1 = Except.ok () ∧
      mapLookup ((remove_index_w m K).2) K = none ∧
      ∀ K2, K2 ≠ K → mapLookup ((remove_index_w m K).2) K2 = mapLookup m K2) := by
  constructor
  · intro h
    have hc : mapContainsKey m K = false := by simp [mapContainsKey, h]
    simp [remove_index_w, hc]
  · intro B h
    have hc : mapContainsKey m K = true := by simp [mapContainsKey, h]
    refine ⟨by simp [remove_index_w, hc], ?_, ?_⟩
    · simp [remove_index_w, hc, mapLookup_mapErase]
    · intro K2 hK2
      simp [remove_index_w, hc, mapLookup_mapErase, hK2]

/-- Witness for C6: removal fails on the empty registry; removal of a
present key succeeds and empties it. -/
theorem remove_index_w_spec_witness :
    remove_index_w ([] : List (String × Nat)) "k" =
      (Except.error (removeNotFoundMsg "k"), []) ∧
    ((remove_index_w [("k", (5 : Nat))] "k").1 = Except.ok () ∧
      mapLookup ((remove_index_w [("k", (5 : Nat))] "k").2) "k" = none) := by
  refine ⟨(remove_index_w_spec ([] : List (String × Nat)) "k").1 rfl, ?_⟩
  obtain ⟨h1, h2, h3⟩ :=
    (remove_index_w_spec [("k", (5 : Nat))] "k").2 5 (by simp [mapLookup])
  exact ⟨h1, h2⟩

/-- C7: registry round trip.  After `set_index_w K B` (whatever condition
it reported), any sequence of further operations touching only other keys
leaves `get_index_w K` returning `B`; `get_index_w` on an unmapped key
fails with the `NotFound` message; and after `remove_index_w K`,
`get_index_w K` fails with the `NotFound` message. -/
theorem registry_round_trip (m : List (String × V)) (K : String) (B : V)
    (ops : List (RegOp V)) :
    ((∀ op ∈ ops, RegOp.key op ≠ K) →
      get_index_w (runRegOps ((set_index_w m K B).2) ops) K = Except.ok B) ∧
    (mapLookup m K = none → get_index_w m K = Except.error (notFoundMsg K)) ∧
    get_index_w ((remove_index_w m K).2) K = Except.error (notFoundMsg K) := by
  refine ⟨?_, ?_, ?_⟩
  · intro h
    rw [get_index_w, runRegOps_lookup_ne _ ops K h, set_index_w_snd,
      mapLookup_mapInsert, if_pos rfl]
  · intro h
    rw [get_index_w, h]
  · by_cases hc : mapContainsKey m K
    · have h2 : (remove_index_w m K).2 = mapErase m K := by simp [remove_index_w, hc]
      simp [get_index_w, h2, mapLookup_mapErase]
    · have h2 : (remove_index_w m K).2 = m := by simp [remove_index_w, hc]
      cases hl : mapLookup m K with
      | none => simp [get_index_w, h2, hl]
      | some v => exact absurd (by simp [mapContainsKey, hl]) hc

/-- Witness for C7: set then get on the empty registry, and a miss on the
empty registry. -/
theorem registry_round_trip_witness :
    get_index_w (runRegOps ((set_index_w ([] : List (String × Nat)) "k" 7).2) []) "k" =
      Except.ok 7 ∧
    get_index_w ([] : List (String × Nat)) "k" = Except.error (notFoundMsg "k") := by
  obtain ⟨h1, h2, h3⟩ := registry_round_trip ([] : List (String × Nat)) "k" 7 []
  exact ⟨h1 (by simp), h2 rfl⟩

/-- C8: `delete_term t` and `delete_terms [t]` are the same function of the
bridge state: on a live writer both return `Ok` with the stamp of that one
deletion and the same advanced writer; on a retired writer both return the
same "not available for delete_term" error. -/
theorem delete_term_eq_delete_terms_singleton (E : Engine W D T)
    (b : IndexWriterBridge I W) (t : T) :
    IndexWriterBridge.delete_term E b t = IndexWriterBridge.delete_terms E b [t] := by
  cases h : b.writer with
  | none => simp [IndexWriterBridge.delete_term, IndexWriterBridge.delete_terms, h]
  | some w =>
      simp [IndexWriterBridge.delete_term, IndexWriterBridge.delete_terms, h,
        deleteTermsLoop]

/-- C9: when `wait_merging_threads` acquires the lock it returns success,
whatever the engine's merge-wait returns: the call's outcome is invariant
under replacing the engine's `waitMergingThreads` by any other function, so
an engine error there is discarded and never surfaced. -/
theorem wait_merging_threads_discards_engine_result (E : Engine W D T)
    (f : W → Except String Unit) (b : IndexWriterBridge I W) :
    (IndexWriterBridge.wait_merging_threads E b).1 = Except.ok () ∧
    IndexWriterBridge.wait_merging_threads { E with waitMergingThreads := f } b =
      IndexWriterBridge.wait_merging_threads E b := by
  refine ⟨wait_merging_threads_fst E b, ?_⟩
  cases h : b.writer <;> simp [IndexWriterBridge.wait_merging_threads, h]

end TantivySearch
